import Mathlib

set_option linter.unusedVariables false

/-! Shallow embedding of src/extension/src/Package.ts from
vscode-private-extension-manager.

JavaScript manifest property values are modelled by the JVal type; an
absent property is Option.none.  External collaborators (the vscode host
API, the semver library parse function, and the installed-extension
lookup from extensionInfo.ts) are modelled as explicit parameters or
small records, following the external-interface contracts in section 6
of the specification. -/

/-- A JSON-like JavaScript value, as found in a package manifest. -/
inductive JVal where
  | str (s : String)
  | num (n : Int)
  | boolVal (b : Bool)
  | null
  | arr (elems : List JVal)
  | obj (fields : List (String × JVal))

/-- The manifest properties that Package.ts reads.  The source takes a
Record of unknown values; properties the code never reads cannot affect
its behaviour, so only the read properties are modelled. -/
structure Manifest where
  engines : Option JVal := none
  name : Option JVal := none
  displayName : Option JVal := none
  publisher : Option JVal := none
  description : Option JVal := none
  version : Option JVal := none
  files : Option JVal := none
  main : Option JVal := none
  extensionDependencies : Option JVal := none
  extensionPack : Option JVal := none
  extensionKind : Option JVal := none

/-- Extracts a property value when it is a string, mirroring the
JavaScript test (typeof v === string). -/
def getStr : Option JVal → Option String
  | some (JVal.str s) => some s
  | _ => none

/-- JavaScript truthiness of a property value; an absent property
(undefined) is falsy. -/
def truthy : Option JVal → Bool
  | none => false
  | some (JVal.str s) => !s.data.isEmpty
  | some (JVal.num n) => n != 0
  | some (JVal.boolVal b) => b
  | some JVal.null => false
  | some (JVal.arr _) => true
  | some (JVal.obj _) => true

/-- JavaScript truthiness of a value of TypeScript type
(string or null or undefined): present and non-empty. -/
def strOptTruthy : Option String → Bool
  | some s => !s.data.isEmpty
  | none => false

/-- The JavaScript typeof operator on a property value (undefined when
the property is absent; note typeof null and typeof array are both
the string object). -/
def jsTypeof : Option JVal → String
  | none => "undefined"
  | some (JVal.str _) => "string"
  | some (JVal.num _) => "number"
  | some (JVal.boolVal _) => "boolean"
  | some JVal.null => "object"
  | some (JVal.arr _) => "object"
  | some (JVal.obj _) => "object"

/-- Is the value the JavaScript null literal? -/
def isNullJ : JVal → Bool
  | JVal.null => true
  | _ => false

/-- The JavaScript in operator restricted to the keys used here: a plain
object has the property when one of its fields is named by it; a
non-index key such as vscode is never a property of an array. -/
def hasProp (v : JVal) (key : String) : Bool :=
  match v with
  | JVal.obj fields => fields.any (fun kv => kv.1 == key)
  | _ => false

/-- The gate on line 80 of Package.ts: typeof manifest.engines must be
object, engines must not be null, and vscode must be a property of it. -/
def enginesGate (engines : Option JVal) : Bool :=
  match engines with
  | none => false
  | some e => jsTypeof (some e) == "object" && !isNullJ e && hasProp e "vscode"

/-- Modelled from the spec: isNonEmptyArray from src/extension/src/util.ts
(not included under src/); per the specification it is a
presence-of-nonempty-sequence check, true exactly for an array value of
positive length. -/
def isNonEmptyArray : Option JVal → Bool
  | some (JVal.arr elems) => !elems.isEmpty
  | _ => false

/-- JavaScript String.prototype.endsWith on our list-of-characters
strings. -/
def endsWithS (s suffix : String) : Bool :=
  suffix.data.isSuffixOf s.data

/-- JavaScript String.prototype.toLowerCase (ASCII range, as Lean Char
lowercasing). -/
def toLowerS (s : String) : String :=
  String.mk (s.data.map Char.toLower)

/-- findVsixFile from Package.ts: the first entry of the files array that
is a string ending in .vsix, if the files property is an array. -/
def findVsixFile (m : Manifest) : Option String :=
  match m.files with
  | some (JVal.arr files) =>
      files.findSome? (fun f =>
        match f with
        | JVal.str s => if endsWithS s ".vsix" then some s else none
        | _ => none)
  | _ => none

/-- A prerelease identifier of a semantic version: numeric or
alphanumeric. -/
inductive PreId where
  | numId (n : Nat)
  | alphaId (s : String)
deriving DecidableEq

/-- A semantic version: the major.minor.patch triple plus the prerelease
identifier list (build metadata never participates in ordering and is
dropped).  This is the SemVer value produced by the semver library. -/
structure SemVer where
  major : Nat
  minor : Nat
  patch : Nat
  prerelease : List PreId
deriving DecidableEq

/-- Three-way comparison of naturals, written out so that it reduces. -/
def natCompare (a b : Nat) : Ordering :=
  if a < b then Ordering.lt else if b < a then Ordering.gt else Ordering.eq

/-- Three-way comparison of strings under the lexicographic order. -/
def strCompare (a b : String) : Ordering :=
  if a < b then Ordering.lt else if b < a then Ordering.gt else Ordering.eq

/-- Semantic-version precedence on prerelease identifiers: numeric
identifiers compare numerically and are lower than alphanumeric ones,
which compare lexically. -/
def preIdCompare : PreId → PreId → Ordering
  | PreId.numId a, PreId.numId b => natCompare a b
  | PreId.numId _, PreId.alphaId _ => Ordering.lt
  | PreId.alphaId _, PreId.numId _ => Ordering.gt
  | PreId.alphaId a, PreId.alphaId b => strCompare a b

/-- Semantic-version precedence on prerelease identifier lists: compare
elementwise; a strict prefix is lower. -/
def preListCompare : List PreId → List PreId → Ordering
  | [], [] => Ordering.eq
  | [], _ :: _ => Ordering.lt
  | _ :: _, [] => Ordering.gt
  | a :: as, b :: bs =>
      match preIdCompare a b with
      | Ordering.eq => preListCompare as bs
      | o => o

/-- Semantic-version precedence: compare the triple lexicographically;
on a tie, a version without prerelease identifiers is higher than one
with, and two prerelease lists compare by preListCompare. -/
def semverCompare (a b : SemVer) : Ordering :=
  match natCompare a.major b.major with
  | Ordering.eq =>
      match natCompare a.minor b.minor with
      | Ordering.eq =>
          match natCompare a.patch b.patch with
          | Ordering.eq =>
              match a.prerelease, b.prerelease with
              | [], [] => Ordering.eq
              | [], _ :: _ => Ordering.gt
              | _ :: _, [] => Ordering.lt
              | as, bs => preListCompare as bs
          | o => o
      | o => o
  | o => o

/-- Strict greater-than under semantic-version precedence.  This is the
comparison the specification prescribes for update detection (section
4.2, total semantic-version ordering); the getter in the source instead
coerces the SemVer objects through their version strings, see
semverGtJs.  The two orders are compared by the update-available claim. -/
def semverGt (a b : SemVer) : Bool :=
  semverCompare a b == Ordering.gt

/-- The sentinel zero version, new SemVer of the string 0.0.0. -/
def semverZero : SemVer := ⟨0, 0, 0, []⟩

/-- A prerelease identifier rendered as the semver library renders it
when formatting the version string. -/
def preIdStr : PreId → String
  | PreId.numId n => Nat.repr n
  | PreId.alphaId s => s

/-- The version string of a SemVer object, as the semver library
formats it (and as its toString returns it): major.minor.patch,
followed by a dash and the dot-joined prerelease identifiers when any
are present. -/
def semverFormat (v : SemVer) : String :=
  let base := Nat.repr v.major ++ "." ++ Nat.repr v.minor ++ "." ++ Nat.repr v.patch
  match v.prerelease with
  | [] => base
  | ids => base ++ "-" ++ String.intercalate "." (ids.map preIdStr)

/-- The JavaScript less-than on strings: lexicographic by code unit,
with a strict prefix below any extension of it. -/
def strLtJs : List Char → List Char → Bool
  | [], [] => false
  | [], _ :: _ => true
  | _ :: _, [] => false
  | a :: as, b :: bs =>
      if a.toNat < b.toNat then true
      else if b.toNat < a.toNat then false
      else strLtJs as bs

/-- The JavaScript relational operator version > installedVersion on
line 227 of Package.ts applied to two SemVer objects: the SemVer class
has a toString but no valueOf, so ToPrimitive turns both operands into
their version strings and the operator compares those strings
lexicographically by code unit — not semantic-version precedence. -/
def semverGtJs (a b : SemVer) : Bool :=
  strLtJs (semverFormat b).data (semverFormat a).data

/-- vscode.ExtensionKind: where an installed extension runs. -/
inductive ExtensionKind where
  | UI
  | Workspace
deriving DecidableEq, BEq

/-- Modelled from the spec: the result of the installed-extension lookup
collaborator getExtension from src/extension/src/extensionInfo.ts (not
included under src/): the live extension kind, when the collaborator
reports one, and the installed version. -/
structure ExtensionInfo where
  extensionKind : Option ExtensionKind
  version : SemVer

/-- Modelled from the spec: the vscode host collaborators read by
Package.ts — vscode.env.remoteName (none when no remote mode is active)
and the remote.extensionKind configuration mapping, read with default
empty mapping; its key order is the object key order. -/
structure HostEnv where
  remoteName : Option String := none
  remoteExtensionKindConfig : List (String × String) := []

/-- getExtensionKind from Package.ts: the value of the first
remote.extensionKind configuration key whose lowercasing equals the
extension id; otherwise the manifest extensionKind property when it is a
string. -/
def getExtensionKind (env : HostEnv) (extensionId : String) (m : Manifest) : Option String :=
  match env.remoteExtensionKindConfig.find? (fun kv => toLowerS kv.1 == extensionId) with
  | some kv => some kv.2
  | none => getStr m.extensionKind

/-- isUiExtension from Package.ts: every extension is a UI extension
outside remote mode; otherwise the resolved kind ui or workspace
decides, and an unresolved kind falls to the heuristics on main and on
the dependency and extension-pack arrays. -/
def isUiExtension (env : HostEnv) (extensionId : String) (m : Manifest) : Bool :=
  if env.remoteName.isNone then true
  else
    match getExtensionKind env extensionId m with
    | some "ui" => true
    | some "workspace" => false
    | _ =>
      if truthy m.main then false
      else if isNonEmptyArray m.extensionDependencies || isNonEmptyArray m.extensionPack then false
      else true

/-- PackageState from Package.ts. -/
inductive PackageState where
  | Available
  | Installed
  | InstalledRemote
  | UpdateAvailable
  | Invalid
deriving DecidableEq

/-- The two error kinds thrown by the Package constructor:
NotAnExtensionError for a manifest that is not an extension, and the
TypeError for a missing name. -/
inductive ConstructError where
  | notAnExtension
  | missingName
deriving DecidableEq

/-- The localized placeholder text for an unknown publisher. -/
def unknownPublisher : String := "Unknown"

/-- The Package entity: the immutable construction-time fields followed
by the mutable snapshot fields set by updateState. -/
structure Package where
  name : String
  extensionId : String
  displayName : String
  description : String
  version : SemVer
  vsixFile : Option String
  publisherField : Option String
  isUiExtensionHint : Bool
  isInstalledFlag : Bool
  installedVersion : Option SemVer
  installedExtensionKind : Option ExtensionKind

/-- The publisher getter: the stored publisher when the property was
present (the nullish coalescing keeps an empty string), else the
localized unknown-publisher placeholder. -/
def Package.publisher (p : Package) : String :=
  p.publisherField.getD unknownPublisher

/-- The body of the Package constructor after both gates have passed,
given the manifest name string. -/
def mkPackage (env : HostEnv) (parseVer : String → Option SemVer)
    (m : Manifest) (nm : String) : Package :=
  let publisherField := getStr m.publisher
  let publisherStr := publisherField.getD unknownPublisher
  let extensionId := toLowerS (publisherStr ++ "." ++ nm)
  { name := nm
    extensionId := extensionId
    displayName := (getStr m.displayName).getD nm
    description := (getStr m.description).getD nm
    version :=
      match getStr m.version with
      | some s => (parseVer s).getD semverZero
      | none => semverZero
    vsixFile := findVsixFile m
    publisherField := publisherField
    isUiExtensionHint := isUiExtension env extensionId m
    isInstalledFlag := false
    installedVersion := none
    installedExtensionKind := none }

/-- The Package constructor: the engines gate throws NotAnExtensionError,
then a non-string name throws the missing-name TypeError, and every
remaining field defaults rather than fails.  The semver parse function
is the external library collaborator. -/
def construct (env : HostEnv) (parseVer : String → Option SemVer)
    (m : Manifest) : Except ConstructError Package :=
  if enginesGate m.engines then
    match getStr m.name with
    | some nm => Except.ok (mkPackage env parseVer m nm)
    | none => Except.error ConstructError.missingName
  else Except.error ConstructError.notAnExtension

/-- updateState from Package.ts, with the asynchronous getExtension
lookup result passed in: a hit sets the three snapshot fields from the
result, a miss resets all three. -/
def Package.updateState (p : Package) (lookup : Option ExtensionInfo) : Package :=
  match lookup with
  | some ext =>
      { p with
        isInstalledFlag := true
        installedExtensionKind := ext.extensionKind
        installedVersion := some ext.version }
  | none =>
      { p with
        isInstalledFlag := false
        installedExtensionKind := none
        installedVersion := none }

/-- The isInstalled getter. -/
def Package.isInstalled (p : Package) : Bool :=
  p.isInstalledFlag

/-- The isUiExtension getter: the live installed kind when one was
recorded, else the construction-time hint. -/
def Package.isUiExtension (p : Package) : Bool :=
  match p.installedExtensionKind with
  | some k => k == ExtensionKind.UI
  | none => p.isUiExtensionHint

/-- The isUpdateAvailable getter: an installed version exists and the
JavaScript comparison of the two SemVer objects holds — which, through
the string coercion, is a lexicographic comparison of the formatted
version strings. -/
def Package.isUpdateAvailable (p : Package) : Bool :=
  match p.installedVersion with
  | some iv => semverGtJs p.version iv
  | none => false

/-- The state getter: validity first (a truthy stored publisher and a
truthy vsix path), then update-available, then installed locally or
remotely, then available. -/
def Package.state (p : Package) : PackageState :=
  if strOptTruthy p.publisherField && strOptTruthy p.vsixFile then
    if p.isUpdateAvailable then PackageState.UpdateAvailable
    else if p.isInstalled then
      if p.isUiExtension then PackageState.Installed else PackageState.InstalledRemote
    else PackageState.Available
  else PackageState.Invalid

/-- The localized missing-publisher message. -/
def missingPublisherMessage : String := "Manifest is missing \"publisher\" field."

/-- The localized missing-vsix message. -/
def missingVsixMessage : String := "Manifest is missing .vsix file in \"files\" field."

/-- The errorMessage getter: the missing-publisher message when the
stored publisher is falsy, else the missing-vsix message when the vsix
path is falsy, else the empty string. -/
def Package.errorMessage (p : Package) : String :=
  if !strOptTruthy p.publisherField then missingPublisherMessage
  else if !strOptTruthy p.vsixFile then missingVsixMessage
  else ""

/-! Helper lemmas about the embedded operations. -/

theorem natCompare_self (a : Nat) : natCompare a a = Ordering.eq := by
  simp [natCompare]

theorem strCompare_self (a : String) : strCompare a a = Ordering.eq := by
  simp [strCompare, String.lt_irrefl]

theorem preIdCompare_self (x : PreId) : preIdCompare x x = Ordering.eq := by
  cases x with
  | numId n => simp [preIdCompare, natCompare_self]
  | alphaId s => simp [preIdCompare, strCompare_self]

theorem preListCompare_self (l : List PreId) : preListCompare l l = Ordering.eq := by
  induction l with
  | nil => rfl
  | cons a as ih => simp [preListCompare, preIdCompare_self, ih]

theorem semverCompare_self (v : SemVer) : semverCompare v v = Ordering.eq := by
  unfold semverCompare
  rw [natCompare_self, natCompare_self, natCompare_self]
  cases h : v.prerelease with
  | nil => rfl
  | cons a as => simp [preListCompare_self]

theorem semverGt_self (v : SemVer) : semverGt v v = false := by
  rw [semverGt, semverCompare_self]
  rfl

theorem strData_append (a b : String) : (a ++ b).data = a.data ++ b.data := by
  cases a; cases b; rfl

theorem toLowerS_append (a b : String) : toLowerS (a ++ b) = toLowerS a ++ toLowerS b := by
  cases a with
  | mk da =>
    cases b with
    | mk db =>
      show String.mk ((String.mk da ++ String.mk db).data.map Char.toLower) = _
      rw [strData_append]
      simp [toLowerS]
      rfl

theorem getStr_eq_some {v : Option JVal} {s : String} :
    getStr v = some s ↔ v = some (JVal.str s) := by
  cases v with
  | none => simp [getStr]
  | some j => cases j <;> simp [getStr]

theorem construct_ok_elim {env : HostEnv} {pv : String → Option SemVer}
    {m : Manifest} {p : Package} (h : construct env pv m = Except.ok p) :
    enginesGate m.engines = true ∧
      ∃ nm, getStr m.name = some nm ∧ p = mkPackage env pv m nm := by
  unfold construct at h
  split at h
  · next hg =>
    split at h
    · next nm hnm => exact ⟨hg, nm, hnm, (Except.ok.inj h).symm⟩
    · exact absurd h (by simp)
  · exact absurd h (by simp)

theorem updateState_frame (p : Package) (r : Option ExtensionInfo) :
    (p.updateState r).name = p.name ∧
    (p.updateState r).extensionId = p.extensionId ∧
    (p.updateState r).displayName = p.displayName ∧
    (p.updateState r).description = p.description ∧
    (p.updateState r).version = p.version ∧
    (p.updateState r).vsixFile = p.vsixFile ∧
    (p.updateState r).publisherField = p.publisherField ∧
    (p.updateState r).isUiExtensionHint = p.isUiExtensionHint := by
  cases r <;> simp [Package.updateState]

theorem foldl_updateState_inert (p : Package) (ls : List (Option ExtensionInfo)) :
    (ls.foldl Package.updateState p).publisherField = p.publisherField ∧
    (ls.foldl Package.updateState p).vsixFile = p.vsixFile := by
  induction ls generalizing p with
  | nil => exact ⟨rfl, rfl⟩
  | cons r rs ih =>
    have h := updateState_frame p r
    simpa [List.foldl, h.2.2.2.2.2.1, h.2.2.2.2.2.2.1] using ih (p.updateState r)

/-! The claims. -/

/-- A valid installed UI package at version 1.10.0 whose installed
version is 1.9.0, the failing input for C1. -/
def pkgC1 : Package :=
  { name := "bar", extensionId := "foo.bar", displayName := "bar",
    description := "bar", version := ⟨1, 10, 0, []⟩,
    vsixFile := some "a.vsix", publisherField := some "foo",
    isUiExtensionHint := true, isInstalledFlag := true,
    installedVersion := some ⟨1, 9, 0, []⟩, installedExtensionKind := none }

/-- C1 (code bug): the claim and the specification demand
UpdateAvailable exactly when the package version is strictly greater
than the installed version under semantic-version precedence, but the
getter applies the JavaScript relational operator to two SemVer
objects, which compares their formatted version strings
lexicographically.  At package version 1.10.0 over installed version
1.9.0 the semantic order says strictly greater, while the string
1.10.0 is lexicographically below 1.9.0, so the code reports Installed
instead of UpdateAvailable. -/
theorem update_available_code_bug :
    semverFormat pkgC1.version = "1.10.0"
  ∧ pkgC1.installedVersion = some ⟨1, 9, 0, []⟩
  ∧ semverFormat ⟨1, 9, 0, []⟩ = "1.9.0"
  ∧ semverGt pkgC1.version ⟨1, 9, 0, []⟩ = true
  ∧ pkgC1.isUpdateAvailable = false
  ∧ pkgC1.state = PackageState.Installed :=
  ⟨by decide, rfl, by decide, by decide, by decide, by decide⟩

/-- C2: for a lower-case extension identity (every constructed
extensionId is lower-case) and any manifest, host-kind classification
returns UI unconditionally when no remote mode is active; when remote
mode is active, a configuration-override entry whose key matches the
identity case-insensitively wins over the manifest extensionKind field —
in particular an override of workspace classifies the extension as
workspace even if the manifest declares extensionKind ui — and a
resolved kind of exactly ui classifies UI while exactly workspace
classifies workspace. -/
theorem host_kind_classification (env : HostEnv) (extId : String) (m : Manifest)
    (hid : toLowerS extId = extId) :
    (env.remoteName = none → isUiExtension env extId m = true)
  ∧ (∀ k v, env.remoteExtensionKindConfig.find?
        (fun kv => toLowerS kv.1 == toLowerS extId) = some (k, v) →
      getExtensionKind env extId m = some v)
  ∧ (∀ r, env.remoteName = some r → getExtensionKind env extId m = some "ui" →
      isUiExtension env extId m = true)
  ∧ (∀ r, env.remoteName = some r → getExtensionKind env extId m = some "workspace" →
      isUiExtension env extId m = false)
  ∧ (∀ r k, env.remoteName = some r →
      env.remoteExtensionKindConfig.find? (fun kv => toLowerS kv.1 == toLowerS extId)
        = some (k, "workspace") →
      m.extensionKind = some (JVal.str "ui") →
      isUiExtension env extId m = false) := by
  rw [hid]
  refine ⟨?_, ?_, ?_, ?_, ?_⟩
  · intro hnone
    simp [isUiExtension, hnone]
  · intro k v hf
    simp [getExtensionKind, hf]
  · intro r hr hkind
    simp [isUiExtension, hr, hkind]
  · intro r hr hkind
    simp [isUiExtension, hr, hkind]
  · intro r k hr hf hman
    have hkind : getExtensionKind env extId m = some "workspace" := by
      simp [getExtensionKind, hf]
    simp [isUiExtension, hr, hkind]

/-- A host environment with remote mode active and one override entry
for the C2 witness. -/
def envW2 : HostEnv :=
  { remoteName := some "ssh-remote",
    remoteExtensionKindConfig := [("Pub.Name", "workspace")] }

/-- A manifest declaring extensionKind ui for the C2 witness. -/
def mW2 : Manifest := { extensionKind := some (JVal.str "ui") }

/-- Witness for C2: the workspace override beats the manifest ui kind. -/
theorem host_kind_classification_witness :
    isUiExtension envW2 "pub.name" mW2 = false :=
  (host_kind_classification envW2 "pub.name" mW2 (by decide)).2.2.2.2
    "ssh-remote" "Pub.Name" rfl (by decide) rfl

/-- A host environment in remote mode with an empty override mapping,
for C3. -/
def envC3 : HostEnv := { remoteName := some "wsl" }

/-- A manifest whose main property is present but an empty string, for
the C3 counterexample. -/
def mC3 : Manifest := { main := some (JVal.str "") }

/-- C3 counterexample: under active remote mode with the extension kind
unresolved, a manifest whose main field is present (the empty string) is
classified UI, not workspace — the code tests the truthiness of main,
not its presence. -/
theorem heuristics_counterexample :
    envC3.remoteName.isSome = true
  ∧ getExtensionKind envC3 "a.b" mC3 = none
  ∧ mC3.main = some (JVal.str "")
  ∧ isUiExtension envC3 "a.b" mC3 = true :=
  ⟨rfl, rfl, rfl, rfl⟩

/-- C3 (amended): for every manifest whose extension kind is unresolved
under active remote mode, the heuristics yield: workspace whenever the
main field is truthy (present with a truthy value); workspace whenever
extensionDependencies or extensionPack is a non-empty array (a
zero-length array is treated the same as an absent field); and UI
otherwise. -/
theorem heuristics_unresolved_kind (env : HostEnv) (extId : String) (m : Manifest)
    (hremote : env.remoteName.isSome = true)
    (hnokind : getExtensionKind env extId m = none) :
    (truthy m.main = true → isUiExtension env extId m = false)
  ∧ ((isNonEmptyArray m.extensionDependencies || isNonEmptyArray m.extensionPack) = true →
      isUiExtension env extId m = false)
  ∧ (truthy m.main = false → isNonEmptyArray m.extensionDependencies = false →
      isNonEmptyArray m.extensionPack = false → isUiExtension env extId m = true)
  ∧ isNonEmptyArray (some (JVal.arr [])) = isNonEmptyArray none := by
  obtain ⟨r, hr⟩ := Option.isSome_iff_exists.mp hremote
  refine ⟨?_, ?_, ?_, rfl⟩
  · intro hmain
    simp [isUiExtension, hr, hnokind, hmain]
  · intro hdeps
    by_cases hmain : truthy m.main = true <;>
      simp_all [isUiExtension, hr, hnokind]
  · intro hmain hdep hpack
    simp [isUiExtension, hr, hnokind, hmain, hdep, hpack]

/-- A manifest with a truthy main entry point for the C3 witness. -/
def mC3w : Manifest := { main := some (JVal.str "./out/extension.js") }

/-- Witness for the amended C3: a truthy main classifies workspace. -/
theorem heuristics_unresolved_kind_witness :
    isUiExtension envC3 "a.b" mC3w = false :=
  (heuristics_unresolved_kind envC3 "a.b" mC3w rfl rfl).1 (by decide)

/-- C4: for every constructed Package whose manifest lacks a string
publisher or whose files list contains no entry ending in .vsix, the
state getter returns Invalid after any sequence of updateState calls
with any lookup results. -/
theorem invalid_is_permanent (env : HostEnv) (pv : String → Option SemVer)
    (m : Manifest) (p : Package) (h : construct env pv m = Except.ok p)
    (hbad : getStr m.publisher = none ∨ findVsixFile m = none)
    (ls : List (Option ExtensionInfo)) :
    (ls.foldl Package.updateState p).state = PackageState.Invalid := by
  obtain ⟨hg, nm, hnm, hp⟩ := construct_ok_elim h
  have hfields := foldl_updateState_inert p ls
  have hpubf : (ls.foldl Package.updateState p).publisherField = getStr m.publisher := by
    rw [hfields.1, hp]
    rfl
  have hvsixf : (ls.foldl Package.updateState p).vsixFile = findVsixFile m := by
    rw [hfields.2, hp]
    rfl
  cases hbad with
  | inl hpub => simp [Package.state, hpubf, hpub, strOptTruthy]
  | inr hvsix => simp [Package.state, hvsixf, hvsix, strOptTruthy]

/-- A manifest with no publisher for the C4 witness. -/
def mW4 : Manifest :=
  { engines := some (JVal.obj [("vscode", JVal.str "^1.0.0")]),
    name := some (JVal.str "bar"),
    files := some (JVal.arr [JVal.str "a.vsix"]) }

/-- Witness for C4: the publisher-less package stays Invalid even after
a lookup hit is applied. -/
theorem invalid_is_permanent_witness :
    ([some ⟨some ExtensionKind.UI, ⟨9, 9, 9, []⟩⟩].foldl Package.updateState
      (mkPackage {} (fun _ => none) mW4 "bar")).state = PackageState.Invalid :=
  invalid_is_permanent {} (fun _ => none) mW4 _ rfl (Or.inl rfl) _

/-- The engines gate holds exactly for an object-valued engines property
containing a vscode key. -/
theorem enginesGate_iff (e : Option JVal) :
    enginesGate e = true ↔
      ∃ fields, e = some (JVal.obj fields) ∧
        fields.any (fun kv => kv.1 == "vscode") = true := by
  cases e with
  | none => simp [enginesGate]
  | some j => cases j <;> simp [enginesGate, jsTypeof, isNullJ, hasProp]

/-- C5: construction fails with the not-an-extension error kind exactly
when the manifest lacks an object-valued engines field containing the
vscode key; it fails with the distinct missing-name error kind exactly
when the engines gate passes but the manifest has no string name; and
for every manifest passing both checks construction succeeds. -/
theorem construction_gates (env : HostEnv) (pv : String → Option SemVer)
    (m : Manifest) :
    (construct env pv m = Except.error ConstructError.notAnExtension ↔
      ¬ ∃ fields, m.engines = some (JVal.obj fields) ∧
        fields.any (fun kv => kv.1 == "vscode") = true)
  ∧ (construct env pv m = Except.error ConstructError.missingName ↔
      ((∃ fields, m.engines = some (JVal.obj fields) ∧
          fields.any (fun kv => kv.1 == "vscode") = true) ∧
        ∀ s, m.name ≠ some (JVal.str s)))
  ∧ (∀ fields s, m.engines = some (JVal.obj fields) →
      fields.any (fun kv => kv.1 == "vscode") = true →
      m.name = some (JVal.str s) →
      construct env pv m = Except.ok (mkPackage env pv m s)) := by
  have hgate := enginesGate_iff m.engines
  by_cases hg : enginesGate m.engines = true
  · cases hn : getStr m.name with
    | some nm =>
      have hc : construct env pv m = Except.ok (mkPackage env pv m nm) := by
        unfold construct
        rw [if_pos hg, hn]
      refine ⟨?_, ?_, ?_⟩
      · constructor
        · intro h
          rw [hc] at h
          exact Except.noConfusion h
        · intro h
          exact absurd (hgate.mp hg) h
      · constructor
        · intro h
          rw [hc] at h
          exact Except.noConfusion h
        · intro h
          exact absurd (getStr_eq_some.mp hn) (h.2 nm)
      · intro fields s hf ha hs
        have hsn : getStr m.name = some s := getStr_eq_some.mpr hs
        rw [hn] at hsn
        cases hsn
        exact hc
    | none =>
      have hc : construct env pv m = Except.error ConstructError.missingName := by
        unfold construct
        rw [if_pos hg, hn]
      refine ⟨?_, ?_, ?_⟩
      · constructor
        · intro h
          rw [hc] at h
          simp at h
        · intro h
          exact absurd (hgate.mp hg) h
      · constructor
        · intro _
          refine ⟨hgate.mp hg, fun s hs => ?_⟩
          have hsn : getStr m.name = some s := getStr_eq_some.mpr hs
          rw [hn] at hsn
          exact Option.noConfusion hsn
        · intro _
          exact hc
      · intro fields s hf ha hs
        have hsn : getStr m.name = some s := getStr_eq_some.mpr hs
        rw [hn] at hsn
        exact Option.noConfusion hsn
  · have hc : construct env pv m = Except.error ConstructError.notAnExtension := by
      unfold construct
      rw [if_neg hg]
    refine ⟨?_, ?_, ?_⟩
    · constructor
      · intro _ hpred
        exact hg (hgate.mpr hpred)
      · intro _
        exact hc
    · constructor
      · intro h
        rw [hc] at h
        simp at h
      · intro h
        exact absurd (hgate.mpr h.1) hg
    · intro fields s hf ha hs
      exact absurd (hgate.mpr ⟨fields, hf, ha⟩) hg

/-- Witness for C5: an array-valued engines fails not-an-extension, an
object engines with vscode but no name fails missing-name, and with a
name construction succeeds. -/
theorem construction_gates_witness :
    construct {} (fun _ => none) { engines := some (JVal.arr [JVal.str "vscode"]) }
        = Except.error ConstructError.notAnExtension
  ∧ construct {} (fun _ => none) { engines := some (JVal.obj [("vscode", JVal.str "1")]) }
        = Except.error ConstructError.missingName
  ∧ construct {} (fun _ => none)
      { engines := some (JVal.obj [("vscode", JVal.str "1")]), name := some (JVal.str "n") }
        = Except.ok (mkPackage {} (fun _ => none)
            { engines := some (JVal.obj [("vscode", JVal.str "1")]),
              name := some (JVal.str "n") } "n") := by
  refine ⟨?_, ?_, ?_⟩
  · exact (construction_gates {} (fun _ => none) _).1.mpr
      (by rintro ⟨f, hf, h2⟩; simp at hf)
  · exact (construction_gates {} (fun _ => none) _).2.1.mpr
      ⟨⟨_, rfl, by decide⟩, fun s hs => by simp at hs⟩
  · exact (construction_gates {} (fun _ => none) _).2.2 _ "n" rfl (by decide) rfl

/-- C6: every updateState call writes the three snapshot fields together
from its lookup result and writes nothing else, and whenever a live
installed kind is recorded the isUiExtension getter reflects it instead
of the construction-time hint. -/
theorem update_state_snapshot (p : Package) (r : Option ExtensionInfo) :
    (∀ ext, r = some ext →
        (p.updateState r).isInstalledFlag = true
      ∧ (p.updateState r).installedExtensionKind = ext.extensionKind
      ∧ (p.updateState r).installedVersion = some ext.version)
  ∧ (r = none →
        (p.updateState r).isInstalledFlag = false
      ∧ (p.updateState r).installedExtensionKind = none
      ∧ (p.updateState r).installedVersion = none)
  ∧ ((p.updateState r).name = p.name
      ∧ (p.updateState r).extensionId = p.extensionId
      ∧ (p.updateState r).displayName = p.displayName
      ∧ (p.updateState r).description = p.description
      ∧ (p.updateState r).version = p.version
      ∧ (p.updateState r).vsixFile = p.vsixFile
      ∧ (p.updateState r).publisherField = p.publisherField
      ∧ (p.updateState r).isUiExtensionHint = p.isUiExtensionHint)
  ∧ (∀ k, (p.updateState r).installedExtensionKind = some k →
      (p.updateState r).isUiExtension = (k == ExtensionKind.UI)) := by
  refine ⟨?_, ?_, updateState_frame p r, ?_⟩
  · rintro ext rfl
    exact ⟨rfl, rfl, rfl⟩
  · rintro rfl
    exact ⟨rfl, rfl, rfl⟩
  · intro k hk
    simp [Package.isUiExtension, hk]

/-- A concrete package whose construction-time hint says UI, for the C6
witness. -/
def pkgW6 : Package :=
  { name := "bar", extensionId := "foo.bar", displayName := "bar",
    description := "bar", version := ⟨1, 0, 0, []⟩,
    vsixFile := some "a.vsix", publisherField := some "foo",
    isUiExtensionHint := true, isInstalledFlag := false,
    installedVersion := none, installedExtensionKind := none }

/-- Witness for C6: a recorded live workspace kind overrides the UI
hint in the isUiExtension getter. -/
theorem update_state_snapshot_witness :
    (pkgW6.updateState (some ⟨some ExtensionKind.Workspace, ⟨2, 0, 0, []⟩⟩)).isUiExtension
      = (ExtensionKind.Workspace == ExtensionKind.UI) :=
  (update_state_snapshot pkgW6 (some ⟨some ExtensionKind.Workspace, ⟨2, 0, 0, []⟩⟩)).2.2.2
    ExtensionKind.Workspace rfl

/-- C7: for every manifest accepted by construction, when the manifest
version string is absent (not a string) or unparsable by the semver
library, the package version equals the sentinel 0.0.0. -/
theorem version_sentinel (env : HostEnv) (pv : String → Option SemVer)
    (m : Manifest) (p : Package) (h : construct env pv m = Except.ok p) :
    (getStr m.version = none → p.version = semverZero)
  ∧ (∀ s, m.version = some (JVal.str s) → pv s = none → p.version = semverZero) := by
  obtain ⟨hg, nm, hnm, hp⟩ := construct_ok_elim h
  subst hp
  constructor
  · intro hv
    simp [mkPackage, hv]
  · intro s hs hparse
    have hv : getStr m.version = some s := getStr_eq_some.mpr hs
    simp [mkPackage, hv, hparse]

/-- A manifest with an unparsable version string for the C7 witness. -/
def mW7 : Manifest :=
  { engines := some (JVal.obj [("vscode", JVal.str "1")]),
    name := some (JVal.str "demo"),
    version := some (JVal.str "not-a-version") }

/-- Witness for C7: the unparsable version falls back to 0.0.0 and
construction still succeeds. -/
theorem version_sentinel_witness :
    (mkPackage {} (fun _ => none) mW7 "demo").version = semverZero :=
  (version_sentinel {} (fun _ => none) mW7 _ rfl).2 "not-a-version" rfl rfl

/-- C8: for every accepted manifest, extensionId equals the lower-casing
of the publisher (or the unknown-publisher placeholder when the field is
absent) joined to the name by a dot; consequently two manifests whose
publisher and name differ only in letter case yield identical
extensionId strings. -/
theorem extension_id_lowercase (env : HostEnv) (pv : String → Option SemVer) :
    (∀ m p, construct env pv m = Except.ok p →
        p.extensionId = toLowerS (p.publisher ++ "." ++ p.name))
  ∧ (∀ m1 m2 p1 p2 s1 s2 n1 n2,
        construct env pv m1 = Except.ok p1 →
        construct env pv m2 = Except.ok p2 →
        m1.publisher = some (JVal.str s1) → m2.publisher = some (JVal.str s2) →
        m1.name = some (JVal.str n1) → m2.name = some (JVal.str n2) →
        toLowerS s1 = toLowerS s2 → toLowerS n1 = toLowerS n2 →
        p1.extensionId = p2.extensionId) := by
  constructor
  · intro m p h
    obtain ⟨hg, nm, hnm, hp⟩ := construct_ok_elim h
    subst hp
    rfl
  · intro m1 m2 p1 p2 s1 s2 n1 n2 h1 h2 hp1 hp2 hn1 hn2 hps hns
    obtain ⟨hg1, nm1, hnm1, hpp1⟩ := construct_ok_elim h1
    obtain ⟨hg2, nm2, hnm2, hpp2⟩ := construct_ok_elim h2
    subst hpp1
    subst hpp2
    have e1 : nm1 = n1 := by
      have hx := getStr_eq_some.mpr hn1
      rw [hnm1] at hx
      exact Option.some.inj hx
    have e2 : nm2 = n2 := by
      have hx := getStr_eq_some.mpr hn2
      rw [hnm2] at hx
      exact Option.some.inj hx
    have hg1p : getStr m1.publisher = some s1 := getStr_eq_some.mpr hp1
    have hg2p : getStr m2.publisher = some s2 := getStr_eq_some.mpr hp2
    show toLowerS ((getStr m1.publisher).getD unknownPublisher ++ "." ++ nm1)
        = toLowerS ((getStr m2.publisher).getD unknownPublisher ++ "." ++ nm2)
    rw [hg1p, hg2p, e1, e2]
    show toLowerS ((s1 ++ ".") ++ n1) = toLowerS ((s2 ++ ".") ++ n2)
    simp only [toLowerS_append]
    rw [hps, hns]

/-- A capitalized manifest for the C8 witness. -/
def mW8a : Manifest :=
  { engines := some (JVal.obj [("vscode", JVal.str "1")]),
    name := some (JVal.str "Bar"), publisher := some (JVal.str "Foo") }

/-- The lower-case variant of the C8 witness manifest. -/
def mW8b : Manifest :=
  { engines := some (JVal.obj [("vscode", JVal.str "1")]),
    name := some (JVal.str "bar"), publisher := some (JVal.str "foo") }

/-- Witness for C8: the two case variants collide on extensionId. -/
theorem extension_id_lowercase_witness :
    (mkPackage {} (fun _ => none) mW8a "Bar").extensionId
      = (mkPackage {} (fun _ => none) mW8b "bar").extensionId :=
  (extension_id_lowercase {} (fun _ => none)).2 mW8a mW8b _ _ "Foo" "foo" "Bar" "bar"
    rfl rfl rfl rfl rfl rfl (by decide) (by decide)

/-- C9: the errorMessage getter returns a non-empty string only when the
state getter returns Invalid, and when both the publisher and the .vsix
artifact path are missing it returns the missing-publisher message. -/
theorem error_message_invalid_only (p : Package) :
    (p.errorMessage ≠ "" → p.state = PackageState.Invalid)
  ∧ (strOptTruthy p.publisherField = false → strOptTruthy p.vsixFile = false →
      p.errorMessage = missingPublisherMessage) := by
  constructor
  · intro hmsg
    by_cases hpub : strOptTruthy p.publisherField = true
    · by_cases hvsix : strOptTruthy p.vsixFile = true
      · exact absurd (by simp [Package.errorMessage, hpub, hvsix]) hmsg
      · simp at hvsix
        simp [Package.state, hpub, hvsix]
    · simp at hpub
      simp [Package.state, hpub]
  · intro hpub hvsix
    simp [Package.errorMessage, hpub]

/-- A package with neither publisher nor artifact path, for the C9
witness. -/
def pkgW9 : Package :=
  { name := "bar", extensionId := "unknown.bar", displayName := "bar",
    description := "bar", version := ⟨1, 0, 0, []⟩,
    vsixFile := none, publisherField := none,
    isUiExtensionHint := true, isInstalledFlag := false,
    installedVersion := none, installedExtensionKind := none }

/-- Witness for C9: with both facts missing the missing-publisher
message wins. -/
theorem error_message_invalid_only_witness :
    pkgW9.errorMessage = missingPublisherMessage :=
  (error_message_invalid_only pkgW9).2 (by decide) (by decide)

/-- C10: a manifest whose publisher is the present empty string yields a
Package with state Invalid and the missing-publisher message — validity
tests the truthiness of the stored publisher — while extensionId uses
the empty string rather than the placeholder, giving a dot followed by
the lower-cased name. -/
theorem empty_publisher_invalid (env : HostEnv) (pv : String → Option SemVer)
    (m : Manifest) (p : Package) (h : construct env pv m = Except.ok p)
    (hpub : m.publisher = some (JVal.str "")) :
    p.state = PackageState.Invalid
  ∧ p.errorMessage = missingPublisherMessage
  ∧ p.extensionId = "." ++ toLowerS p.name := by
  obtain ⟨hg, nm, hnm, hp⟩ := construct_ok_elim h
  subst hp
  have hps : getStr m.publisher = some "" := by
    rw [hpub]
    rfl
  have hpf : (mkPackage env pv m nm).publisherField = some "" := hps
  refine ⟨?_, ?_, ?_⟩
  · simp [Package.state, hpf, strOptTruthy]
  · simp [Package.errorMessage, hpf, strOptTruthy]
  · show toLowerS ((getStr m.publisher).getD unknownPublisher ++ "." ++ nm)
        = "." ++ toLowerS nm
    rw [hps]
    show toLowerS (("" ++ ".") ++ nm) = "." ++ toLowerS nm
    rw [toLowerS_append]
    rfl

/-- A manifest with an empty-string publisher for the C10 witness. -/
def mW10 : Manifest :=
  { engines := some (JVal.obj [("vscode", JVal.str "1")]),
    name := some (JVal.str "Bar"), publisher := some (JVal.str ""),
    files := some (JVal.arr [JVal.str "a.vsix"]) }

/-- Witness for C10: despite the listed .vsix artifact the package is
Invalid and its extensionId is dot-bar. -/
theorem empty_publisher_invalid_witness :
    (mkPackage {} (fun _ => none) mW10 "Bar").state = PackageState.Invalid
  ∧ (mkPackage {} (fun _ => none) mW10 "Bar").extensionId = ".bar" := by
  have h := empty_publisher_invalid {} (fun _ => none) mW10 _ rfl rfl
  exact ⟨h.1, by rw [h.2.2]; decide⟩
